import Mathlib

/-!
Shallow embedding of the PyForge sound-wave factory
(`numpy_task_impl.py`) and verification of its specification.

Modelling conventions:
* Python floats are modelled as exact real numbers (`ℝ`) where
  transcendental functions occur (sine, arcsine), and as rationals (`ℚ`)
  where the code only does field arithmetic, so that those parts stay
  executable.
* Exceptions are modelled with `Except PyError`; the distinct exception
  situations of the code are separate constructors.
* The external WAV container writer (`scipy.io.wavfile.write`) is opaque;
  its success or failure is a `Bool` parameter of `create_wave`.
* IEEE division by zero in NumPy does NOT raise: it produces a non-finite
  value (NaN/Inf) and only emits a RuntimeWarning.  A non-finite sample is
  modelled as `none : Option ℚ`.
-/

/-- Exception taxonomy of the code, one constructor per distinct
error situation (the spec's names: UnknownNoteError, InvalidWaveTypeError,
SynthesisError, CreationError, NormalizationError). -/
inductive PyError where
  | unknownNote (note : String)
  | invalidWaveType
  | synthesisError
  | creationError (note : String)
  | normalizationError
deriving DecidableEq

/-- The hard-coded `NOTES` dictionary of `numpy_task_impl.py`,
embedded as an association list with the decimal frequency literals read
exactly as rationals. -/
def NOTES : List (String × ℚ) :=
  [("0", 0), ("e0", 20.60172), ("f0", 21.82676), ("f#0", 23.12465), ("g0", 24.49971),
   ("g#0", 25.95654), ("a0", 27.50000),
   ("a#0", 29.13524), ("b0", 30.86771), ("c0", 32.70320), ("c#0", 34.64783),
   ("d0", 36.70810), ("d#0", 38.89087),
   ("e1", 41.20344), ("f1", 43.65353), ("f#1", 46.24930), ("g1", 48.99943),
   ("g#1", 51.91309), ("a1", 55.00000), ("a#1", 58.27047),
   ("b1", 61.73541), ("c1", 65.40639), ("c#1", 69.29566), ("d1", 73.41619),
   ("d#1", 77.78175),
   ("e2", 82.40689), ("f2", 87.30706), ("f#2", 92.49861), ("g2", 97.99886),
   ("g#2", 103.8262), ("a2", 110.0000), ("a#2", 116.5409),
   ("b2", 123.4708), ("c2", 130.8128), ("c#2", 138.5913), ("d2", 146.8324),
   ("d#2", 155.5635),
   ("e3", 164.8138), ("f3", 174.6141), ("f#3", 184.9972), ("g3", 195.9977),
   ("g#3", 207.6523), ("a3", 220.0000), ("a#3", 233.0819),
   ("b3", 246.9417), ("c3", 261.6256), ("c#3", 277.1826), ("d3", 293.6648),
   ("d#3", 311.1270),
   ("e4", 329.6276), ("f4", 349.2282), ("f#4", 369.9944), ("g4", 391.9954),
   ("g#4", 415.3047), ("a4", 440.0000), ("a#4", 466.1638),
   ("b4", 493.8833), ("c4", 523.2511), ("c#4", 554.3653), ("d4", 587.3295),
   ("d#4", 622.2540),
   ("e5", 659.2551), ("f5", 698.4565), ("f#5", 739.9888), ("g5", 783.9909),
   ("g#5", 830.6094), ("a5", 880.0000), ("a#5", 932.3275),
   ("b5", 987.7666), ("c5", 1046.502), ("c#5", 1108.731), ("d5", 1174.659),
   ("d#5", 1244.508),
   ("e6", 1318.510), ("f6", 1396.913), ("f#6", 1479.978), ("g6", 1567.982),
   ("g#6", 1661.219), ("a6", 1760.000), ("a#6", 1864.655),
   ("b6", 1975.533), ("c6", 2093.005), ("c#6", 2217.461), ("d6", 2349.318),
   ("d#6", 2489.016),
   ("e7", 2637.020), ("f7", 2793.826), ("f#7", 2959.955), ("g7", 3135.963),
   ("g#7", 3322.438), ("a7", 3520.000), ("a#7", 3729.310),
   ("b7", 3951.066), ("c7", 4186.009), ("c#7", 4434.922), ("d7", 4698.636),
   ("d#7", 4978.032)]

/-- Constant `SAMPLING_RATE = 44100`. -/
def SAMPLING_RATE : ℕ := 44100

/-- Constant `DURATION_SECONDS = 5`. -/
def DURATION_SECONDS : ℕ := 5

/-- Constant `MAX_AMPLITUDE = 2 ** 13`. -/
def MAX_AMPLITUDE : ℚ := 2 ^ 13

/-- Embedding of `np.linspace(start, stop, num=num)` with the default
`endpoint=True`: `num` evenly spaced values; the step is
`(stop - start) / (num - 1)`, and for `num = 1` NumPy returns `[start]`
(the model's division by zero yields `0`, giving the same value). -/
def np_linspace (start stop : ℚ) (num : ℕ) : List ℚ :=
  (List.range num).map fun (i : ℕ) => start + (stop - start) * (i : ℚ) / ((num : ℚ) - 1)

/-- The timeline built in `SoundWaveFactory.__init__`:
`np.linspace(0, duration_seconds, num=sampling_rate * duration_seconds)`. -/
def factory_timeline (sampling_rate duration_seconds : ℕ) : List ℚ :=
  np_linspace 0 duration_seconds (sampling_rate * duration_seconds)

/-- Embedding of `SoundWaveFactory.get_normed_wave`.  The wave-type string
is validated against the closed list before anything else; the three
branches are the NumPy formulas with `np.sign` rendered as `Real.sign`
(whose value at 0 is 0, like NumPy's).  The `try`/`except` that would make
a `SynthesisError` (`RuntimeError`) never fires in the real-number model,
because real arithmetic is total. -/
noncomputable def get_normed_wave (max_amplitude : ℝ) (timeline : List ℝ)
    (frequency : ℝ) (wave_type : String) : Except PyError (List ℝ) :=
  if wave_type ∉ ["sin", "square", "triangle"] then
    .error .invalidWaveType
  else if wave_type = "sin" then
    .ok (timeline.map fun t => max_amplitude * Real.sin (2 * Real.pi * frequency * t))
  else if wave_type = "square" then
    .ok (timeline.map fun t =>
      max_amplitude * Real.sign (Real.sin (2 * Real.pi * frequency * t)))
  else
    .ok (timeline.map fun t =>
      max_amplitude * (2 / Real.pi) * Real.arcsin (Real.sin (2 * Real.pi * frequency * t)))

/-- Truncation toward zero of a real number, the rounding used by a C-style
float-to-integer narrowing conversion (`ndarray.astype`). -/
noncomputable def trunc_toward_zero (x : ℝ) : ℤ :=
  if 0 ≤ x then ⌊x⌋ else ⌈x⌉

/-- Reduction of an integer into the 16-bit signed range by wrapping
modulo `2 ^ 16`, the overflow behaviour of the narrowing conversion. -/
def int16_of_int (z : ℤ) : ℤ :=
  (z + 2 ^ 15) % 2 ^ 16 - 2 ^ 15

/-- Embedding of `.astype(np.int16)` on one sample: truncate toward zero,
then wrap into the 16-bit signed range. -/
noncomputable def astype_int16 (x : ℝ) : ℤ :=
  int16_of_int (trunc_toward_zero x)

/-- Embedding of `SoundWaveFactory.create_wave`.  The note is resolved
first, outside the `try`, so an unknown note raises unwrapped; inside the
`try`, synthesis, quantization and the external write happen, and any
failure is re-raised as the `CreationError` naming the note.  `writeOk`
stands for whether the opaque `wavfile.write` collaborator succeeds. -/
noncomputable def create_wave (max_amplitude : ℝ) (timeline : List ℝ)
    (writeOk : Bool) (note : String) (wave_type : String) :
    Except PyError (List ℤ) :=
  match NOTES.lookup note with
  | none => .error (.unknownNote note)
  | some frequency =>
    match get_normed_wave max_amplitude timeline (frequency : ℝ) wave_type with
    | .error _ => .error (.creationError note)
    | .ok wave =>
      let sound_wave := wave.map astype_int16
      if writeOk then .ok sound_wave else .error (.creationError note)

/-- Embedding of Python's builtin `max` over a sequence: `none` on an empty
sequence (where Python raises `ValueError`), otherwise the maximum. -/
def py_max : List ℚ → Option ℚ
  | [] => none
  | x :: xs => some ((py_max xs).elim x (fun m => max x m))

/-- IEEE float division as NumPy performs it: division by zero does not
raise, it yields a non-finite value (NaN or ±Inf, both modelled `none`)
and only warns. -/
def float_div (x y : ℚ) : Option ℚ :=
  if y = 0 then none else some (x / y)

/-- Embedding of `SoundWaveFactory.normalize_sound_waves`'s list
comprehension `[wave / max(np.abs(wave)) * self.max_amplitude for wave in
waves]` inside its `try`: buffers are processed left to right, and the only
operation that can raise is `max` on an empty buffer, which the `except`
converts into the `NormalizationError` (`RuntimeError`).  The upfront
`isinstance` check is vacuous here because every modelled input is a
buffer.  Arithmetic on a non-finite sample propagates `none`. -/
def normalize_sound_waves (max_amplitude : ℚ) :
    List (List ℚ) → Except PyError (List (List (Option ℚ)))
  | [] => .ok []
  | wave :: waves =>
    match py_max (wave.map fun x => |x|) with
    | none => .error .normalizationError
    | some m =>
      match normalize_sound_waves max_amplitude waves with
      | .error e => .error e
      | .ok rest =>
        .ok ((wave.map fun x => (float_div x m).map fun q => q * max_amplitude) :: rest)

/-- The value `max(np.abs(wave))` for a nonempty buffer (0 for an empty
one); convenience for stating normalization results. -/
def maxAbsVal (w : List ℚ) : ℚ :=
  (py_max (w.map fun x => |x|)).getD 0

/-- C8: for a wave type outside the closed set, `get_normed_wave` signals
the invalid-wave-type error; in the model returning the error before the
`try` block means no waveform computation happens, and the constructor is
distinct from the synthesis error used for numeric failures. -/
theorem get_normed_wave_validates_first (max_amplitude : ℝ) (timeline : List ℝ)
    (frequency : ℝ) (wave_type : String)
    (h : wave_type ∉ ["sin", "square", "triangle"]) :
    get_normed_wave max_amplitude timeline frequency wave_type =
      .error .invalidWaveType ∧
    PyError.invalidWaveType ≠ PyError.synthesisError := by
  refine ⟨?_, by decide⟩
  unfold get_normed_wave
  rw [if_pos h]

/-- Witness for C8 at the concrete wave type "sawtooth". -/
theorem get_normed_wave_validates_first_witness :
    "sawtooth" ∉ ["sin", "square", "triangle"] ∧
    get_normed_wave 1 [] 0 "sawtooth" = .error .invalidWaveType :=
  ⟨by decide, (get_normed_wave_validates_first 1 [] 0 "sawtooth" (by decide)).1⟩

/-- C9: an unknown note makes `create_wave` signal the unknown-note error;
the result does not depend on the wave type or on whether the external
writer would succeed, so neither synthesis nor a file write takes place.
Moreover the table lookup of "a4" yields exactly 440 Hz. -/
theorem create_wave_unknown_note :
    (∀ note, NOTES.lookup note = none →
      ∀ (max_amplitude : ℝ) (timeline : List ℝ) (writeOk : Bool)
        (wave_type : String),
        create_wave max_amplitude timeline writeOk note wave_type =
          .error (.unknownNote note)) ∧
    NOTES.lookup "a4" = some 440 := by
  constructor
  · intro note h max_amplitude timeline writeOk wave_type
    unfold create_wave
    rw [h]
  · have h : NOTES.lookup "a4" = some (440.0000 : ℚ) := rfl
    rw [h]
    norm_num

/-- Witness for C9 at the concrete unknown note "z9". -/
theorem create_wave_unknown_note_witness :
    create_wave 1 [] true "z9" "sin" = .error (.unknownNote "z9") :=
  create_wave_unknown_note.1 "z9" rfl 1 [] true "sin"

/-- C10: for a known note and an invalid wave type, the validation error
raised inside `get_normed_wave` is caught by `create_wave`'s handler and
re-raised as the creation error naming the note; the propagated error is
not the wave-type validation error. -/
theorem create_wave_wraps_invalid_wave_type (max_amplitude : ℝ)
    (timeline : List ℝ) (writeOk : Bool) (note : String) (frequency : ℚ)
    (hn : NOTES.lookup note = some frequency)
    (wave_type : String) (hwt : wave_type ∉ ["sin", "square", "triangle"]) :
    create_wave max_amplitude timeline writeOk note wave_type =
      .error (.creationError note) ∧
    PyError.creationError note ≠ PyError.invalidWaveType := by
  constructor
  · have h2 : get_normed_wave max_amplitude timeline (frequency : ℝ) wave_type =
        .error .invalidWaveType := by
      unfold get_normed_wave
      rw [if_pos hwt]
    unfold create_wave
    rw [hn]
    dsimp only
    rw [h2]
  · intro h
    exact PyError.noConfusion h

/-- Witness for C10 at the known note "a4" and the invalid type "noise". -/
theorem create_wave_wraps_invalid_wave_type_witness :
    create_wave 1 [] true "a4" "noise" = .error (.creationError "a4") :=
  (create_wave_wraps_invalid_wave_type 1 [] true "a4" (440.0000 : ℚ) rfl
    "noise" (by decide)).1

/-- C1 counterexample: with the known note "a4", the valid type "sin" and a
failing external write, `create_wave` raises the creation error instead of
returning the quantized buffer, so the buffer is NOT returned regardless of
whether the external write succeeds. -/
theorem create_wave_write_failure_counterexample :
    create_wave 8192 [0] false "a4" "sin" = .error (.creationError "a4") :=
  rfl

/-- C1 amended: for a known note, `create_wave` returns the quantized
int16 buffer when synthesis and the external write both succeed; a write
failure, like a synthesis failure, is wrapped into the single creation
error naming the note. -/
theorem create_wave_amended (max_amplitude : ℝ) (timeline : List ℝ)
    (note : String) (frequency : ℚ) (hn : NOTES.lookup note = some frequency)
    (wave_type : String) (writeOk : Bool) :
    (∀ w, get_normed_wave max_amplitude timeline (frequency : ℝ) wave_type = .ok w →
      create_wave max_amplitude timeline writeOk note wave_type =
        if writeOk then .ok (w.map astype_int16)
        else .error (.creationError note)) ∧
    (∀ e, get_normed_wave max_amplitude timeline (frequency : ℝ) wave_type = .error e →
      create_wave max_amplitude timeline writeOk note wave_type =
        .error (.creationError note)) := by
  constructor
  · intro w hw
    unfold create_wave
    rw [hn]
    dsimp only
    rw [hw]
  · intro e he
    unfold create_wave
    rw [hn]
    dsimp only
    rw [he]

/-- Witness for C1's amended theorem at note "a4", type "sin", the empty
timeline and a succeeding write. -/
theorem create_wave_amended_witness :
    create_wave 1 [] true "a4" "sin" =
      if true then .ok (([] : List ℝ).map astype_int16)
      else .error (.creationError "a4") :=
  (create_wave_amended 1 [] "a4" (440.0000 : ℚ) rfl "sin" true).1 [] rfl

/-- C2: evaluation of the code at the failing input.  On the all-zero
buffer `[0]`, `max(|wave|)` is 0, NumPy's division by zero yields NaN with
only a warning, so the comprehension completes: the function returns
successfully with a NaN sample (`none`) instead of signalling the
normalization error that the spec requires. -/
theorem normalize_zero_buffer_silent_nan :
    normalize_sound_waves 8192 [[(0 : ℚ)]] = .ok [[none]] :=
  rfl

/-- Helper: the real sign function has absolute value at most 1. -/
theorem abs_real_sign_le_one (s : ℝ) : |Real.sign s| ≤ 1 := by
  rcases lt_trichotomy s 0 with h | h | h
  · rw [Real.sign_of_neg h]
    norm_num
  · rw [h, Real.sign_zero]
    norm_num
  · rw [Real.sign_of_pos h]
    norm_num

/-- C3: for every frequency and amplitude, the three valid wave types
produce exactly the spec's formulas at each timeline point — for "square"
the sign function is the piecewise map sending negatives to -1, positives
to 1 and zero to 0 — and any successfully produced buffer has the same
length as the timeline. -/
theorem synthesize_formulas (max_amplitude : ℝ) (timeline : List ℝ) (frequency : ℝ) :
    get_normed_wave max_amplitude timeline frequency "sin" =
      .ok (timeline.map fun t =>
        max_amplitude * Real.sin (2 * Real.pi * frequency * t)) ∧
    get_normed_wave max_amplitude timeline frequency "square" =
      .ok (timeline.map fun t => max_amplitude *
        (if Real.sin (2 * Real.pi * frequency * t) < 0 then -1
         else if 0 < Real.sin (2 * Real.pi * frequency * t) then 1 else 0)) ∧
    get_normed_wave max_amplitude timeline frequency "triangle" =
      .ok (timeline.map fun t => max_amplitude * (2 / Real.pi) *
        Real.arcsin (Real.sin (2 * Real.pi * frequency * t))) ∧
    ∀ (wave_type : String) (w : List ℝ),
      get_normed_wave max_amplitude timeline frequency wave_type = .ok w →
      w.length = timeline.length := by
  refine ⟨rfl, ?_, rfl, ?_⟩
  · have h : get_normed_wave max_amplitude timeline frequency "square" =
        .ok (timeline.map fun t =>
          max_amplitude * Real.sign (Real.sin (2 * Real.pi * frequency * t))) := rfl
    rw [h]
    simp only [Real.sign]
  · intro wave_type w hw
    unfold get_normed_wave at hw
    split at hw
    · exact absurd hw (by simp)
    · split at hw
      · cases hw
        simp
      · split at hw
        · cases hw
          simp
        · cases hw
          simp

/-- Witness for C3's length postcondition, at the empty timeline with
wave type "sin". -/
theorem synthesize_formulas_witness :
    (List.map (fun t => (1 : ℝ) * Real.sin (2 * Real.pi * 0 * t))
        ([] : List ℝ)).length = ([] : List ℝ).length :=
  (synthesize_formulas 1 [] 0).2.2.2 "sin" _ rfl

/-- Helper: one triangle-wave sample is bounded by the amplitude. -/
theorem triangle_sample_bound (A s : ℝ) (hA : 0 ≤ A) :
    |A * (2 / Real.pi) * Real.arcsin s| ≤ A := by
  have hπ : (0 : ℝ) < Real.pi := Real.pi_pos
  have harc : |Real.arcsin s| ≤ Real.pi / 2 :=
    abs_le.mpr ⟨Real.neg_pi_div_two_le_arcsin s, Real.arcsin_le_pi_div_two s⟩
  have h2π : (0 : ℝ) ≤ 2 / Real.pi := by positivity
  calc |A * (2 / Real.pi) * Real.arcsin s|
      = A * (2 / Real.pi) * |Real.arcsin s| := by
        rw [abs_mul, abs_mul, abs_of_nonneg hA, abs_of_nonneg h2π]
    _ ≤ A * (2 / Real.pi) * (Real.pi / 2) := by
        apply mul_le_mul_of_nonneg_left harc
        positivity
    _ = A := by
        field_simp

/-- C4: for every frequency, nonnegative amplitude and valid wave type,
every sample of the buffer produced by `get_normed_wave` has magnitude at
most the amplitude. -/
theorem synthesize_bounded (max_amplitude : ℝ) (hA : 0 ≤ max_amplitude)
    (timeline : List ℝ) (frequency : ℝ) (wave_type : String)
    (hwt : wave_type ∈ ["sin", "square", "triangle"]) (w : List ℝ)
    (hw : get_normed_wave max_amplitude timeline frequency wave_type = .ok w) :
    ∀ x ∈ w, |x| ≤ max_amplitude := by
  simp only [List.mem_cons, List.not_mem_nil, or_false] at hwt
  rcases hwt with rfl | rfl | rfl
  · have h : get_normed_wave max_amplitude timeline frequency "sin" =
        .ok (timeline.map fun t =>
          max_amplitude * Real.sin (2 * Real.pi * frequency * t)) := rfl
    rw [h] at hw
    cases hw
    intro x hx
    obtain ⟨t, ht, rfl⟩ := List.mem_map.1 hx
    calc |max_amplitude * Real.sin (2 * Real.pi * frequency * t)|
        = max_amplitude * |Real.sin (2 * Real.pi * frequency * t)| := by
          rw [abs_mul, abs_of_nonneg hA]
      _ ≤ max_amplitude * 1 :=
          mul_le_mul_of_nonneg_left (Real.abs_sin_le_one _) hA
      _ = max_amplitude := mul_one _
  · have h : get_normed_wave max_amplitude timeline frequency "square" =
        .ok (timeline.map fun t =>
          max_amplitude * Real.sign (Real.sin (2 * Real.pi * frequency * t))) := rfl
    rw [h] at hw
    cases hw
    intro x hx
    obtain ⟨t, ht, rfl⟩ := List.mem_map.1 hx
    calc |max_amplitude * Real.sign (Real.sin (2 * Real.pi * frequency * t))|
        = max_amplitude * |Real.sign (Real.sin (2 * Real.pi * frequency * t))| := by
          rw [abs_mul, abs_of_nonneg hA]
      _ ≤ max_amplitude * 1 :=
          mul_le_mul_of_nonneg_left (abs_real_sign_le_one _) hA
      _ = max_amplitude := mul_one _
  · have h : get_normed_wave max_amplitude timeline frequency "triangle" =
        .ok (timeline.map fun t => max_amplitude * (2 / Real.pi) *
          Real.arcsin (Real.sin (2 * Real.pi * frequency * t))) := rfl
    rw [h] at hw
    cases hw
    intro x hx
    obtain ⟨t, ht, rfl⟩ := List.mem_map.1 hx
    exact triangle_sample_bound max_amplitude _ hA

/-- Witness for C4 at amplitude 1, frequency 0, timeline `[0]` and wave
type "sin". -/
theorem synthesize_bounded_witness :
    (0 : ℝ) ≤ 1 ∧
    ∀ x ∈ List.map (fun t => (1 : ℝ) * Real.sin (2 * Real.pi * 0 * t)) [0], |x| ≤ 1 :=
  ⟨by norm_num, synthesize_bounded 1 (by norm_num) [0] 0 "sin" (by decide) _ rfl⟩

/-- Helper: the timeline has `sampling_rate * duration_seconds` entries. -/
theorem factory_timeline_length (r d : ℕ) :
    (factory_timeline r d).length = r * d := by
  unfold factory_timeline np_linspace
  rw [List.length_map, List.length_range]

/-- Helper: closed form of the i-th timeline entry. -/
theorem factory_timeline_get (r d i : ℕ) (h : i < (factory_timeline r d).length) :
    (factory_timeline r d).get ⟨i, h⟩ =
      (d : ℚ) * i / (((r * d : ℕ) : ℚ) - 1) := by
  rw [List.get_eq_getElem]
  unfold factory_timeline np_linspace
  rw [List.getElem_map, List.getElem_range]
  push_cast
  ring

/-- C5 counterexample: at the positive inputs `sampling_rate = 1` and
`duration_seconds = 1` the constructed timeline is the single value 0, so
its last value is 0 and not the duration 1 (`np.linspace` with `num = 1`
returns `[start]`). -/
theorem timeline_counterexample :
    0 < 1 ∧ factory_timeline 1 1 = [0] ∧ (0 : ℚ) ≠ (1 : ℚ) := by
  refine ⟨Nat.one_pos, ?_, by norm_num⟩
  norm_num [factory_timeline, np_linspace, List.range_succ]

/-- C5 amended: for positive `sampling_rate` and `duration_seconds` with at
least two samples, the timeline has exactly `sampling_rate *
duration_seconds` entries, starts at 0, ends exactly at the duration, and
consecutive entries differ by the constant step
`duration / (sampling_rate * duration - 1)` (endpoint-inclusive linear
spacing). -/
theorem timeline_spec (r d : ℕ) (hr : 0 < r) (hd : 0 < d) (h2 : 2 ≤ r * d) :
    (factory_timeline r d).length = r * d ∧
    (∀ h0 : 0 < (factory_timeline r d).length,
      (factory_timeline r d).get ⟨0, h0⟩ = 0) ∧
    (∀ hl : r * d - 1 < (factory_timeline r d).length,
      (factory_timeline r d).get ⟨r * d - 1, hl⟩ = (d : ℚ)) ∧
    (∀ i (h1 : i + 1 < (factory_timeline r d).length)
        (h0 : i < (factory_timeline r d).length),
      (factory_timeline r d).get ⟨i + 1, h1⟩ - (factory_timeline r d).get ⟨i, h0⟩ =
        (d : ℚ) / (((r * d : ℕ) : ℚ) - 1)) := by
  have hden : (((r * d : ℕ) : ℚ) - 1) ≠ 0 := by
    have h2q : (2 : ℚ) ≤ ((r * d : ℕ) : ℚ) := by exact_mod_cast h2
    linarith
  refine ⟨factory_timeline_length r d, ?_, ?_, ?_⟩
  · intro h0
    rw [factory_timeline_get]
    simp
  · intro hl
    rw [factory_timeline_get]
    have h1 : 1 ≤ r * d := le_trans (by norm_num) h2
    have hcast : ((r * d - 1 : ℕ) : ℚ) = ((r * d : ℕ) : ℚ) - 1 := by
      push_cast [Nat.cast_sub h1]
      ring
    rw [hcast, mul_div_assoc, div_self hden, mul_one]
  · intro i h1 h0
    rw [factory_timeline_get, factory_timeline_get, div_sub_div_same]
    congr 1
    push_cast
    ring

/-- Witness for C5's amended theorem at `sampling_rate = 1`,
`duration_seconds = 2`. -/
theorem timeline_spec_witness :
    0 < 1 ∧ 0 < 2 ∧ 2 ≤ 1 * 2 ∧ (factory_timeline 1 2).length = 1 * 2 :=
  ⟨by decide, by decide, by decide,
    (timeline_spec 1 2 (by decide) (by decide) (by decide)).1⟩

/-- C6: the narrowing conversion applied by `create_wave`
(`astype_int16`, used on each synthesized sample) truncates toward zero —
it is the floor on nonnegative inputs and the ceiling on negative inputs,
never grows the magnitude, and drops less than one unit — and reduces
out-of-range integers by wrapping modulo `2 ^ 16` into `[-2 ^ 15, 2 ^ 15)`.
Concretely 3/2 maps to 1 and -3/2 to -1 (truncation, not
round-to-nearest), and `2 ^ 15` wraps to `-2 ^ 15` instead of saturating
at `2 ^ 15 - 1`. -/
theorem astype_int16_spec :
    (∀ x : ℝ, 0 ≤ x → trunc_toward_zero x = ⌊x⌋) ∧
    (∀ x : ℝ, x < 0 → trunc_toward_zero x = ⌈x⌉) ∧
    (∀ x : ℝ, |((trunc_toward_zero x : ℤ) : ℝ)| ≤ |x| ∧
      |x - ((trunc_toward_zero x : ℤ) : ℝ)| < 1) ∧
    (∀ z : ℤ, -2 ^ 15 ≤ int16_of_int z ∧ int16_of_int z < 2 ^ 15 ∧
      (2 ^ 16 : ℤ) ∣ (z - int16_of_int z)) ∧
    astype_int16 (3 / 2 : ℝ) = 1 ∧
    astype_int16 (-(3 / 2) : ℝ) = -1 ∧
    astype_int16 ((2 : ℝ) ^ 15) = -(2 ^ 15) := by
  have htpos : ∀ x : ℝ, 0 ≤ x → trunc_toward_zero x = ⌊x⌋ := fun x hx => if_pos hx
  have htneg : ∀ x : ℝ, x < 0 → trunc_toward_zero x = ⌈x⌉ :=
    fun x hx => if_neg (not_le.mpr hx)
  refine ⟨htpos, htneg, ?_, ?_, ?_, ?_, ?_⟩
  · intro x
    by_cases hx : 0 ≤ x
    · rw [htpos x hx]
      have hfl : (0 : ℝ) ≤ (⌊x⌋ : ℝ) := by
        exact_mod_cast Int.floor_nonneg.mpr hx
      constructor
      · rw [abs_of_nonneg hfl, abs_of_nonneg hx]
        exact Int.floor_le x
      · rw [abs_of_nonneg (sub_nonneg.mpr (Int.floor_le x))]
        have := Int.lt_floor_add_one x
        linarith
    · push_neg at hx
      rw [htneg x hx]
      have hcl' : ⌈x⌉ ≤ (0 : ℤ) := Int.ceil_le.mpr (by exact_mod_cast hx.le)
      have hcl : ((⌈x⌉ : ℤ) : ℝ) ≤ 0 := by exact_mod_cast hcl'
      constructor
      · rw [abs_of_nonpos hcl, abs_of_nonpos hx.le]
        exact neg_le_neg (Int.le_ceil x)
      · rw [abs_of_nonpos (sub_nonpos.mpr (Int.le_ceil x))]
        have := Int.ceil_lt_add_one x
        linarith
  · intro z
    unfold int16_of_int
    have hmod0 : 0 ≤ (z + 2 ^ 15) % 2 ^ 16 := Int.emod_nonneg _ (by norm_num)
    have hmod1 : (z + 2 ^ 15) % 2 ^ 16 < 2 ^ 16 := Int.emod_lt_of_pos _ (by norm_num)
    refine ⟨by linarith, by linarith, ?_⟩
    have hdef : (z + 2 ^ 15) % 2 ^ 16 =
        z + 2 ^ 15 - 2 ^ 16 * ((z + 2 ^ 15) / 2 ^ 16) := Int.emod_def _ _
    exact ⟨(z + 2 ^ 15) / 2 ^ 16, by linarith⟩
  · have h1 : trunc_toward_zero (3 / 2 : ℝ) = 1 := by
      rw [htpos _ (by norm_num)]
      norm_num [Int.floor_eq_iff]
    unfold astype_int16
    rw [h1]
    decide
  · have h1 : trunc_toward_zero (-(3 / 2) : ℝ) = -1 := by
      rw [htneg _ (by norm_num)]
      norm_num [Int.ceil_eq_iff]
    unfold astype_int16
    rw [h1]
    decide
  · have h1 : trunc_toward_zero ((2 : ℝ) ^ 15) = 2 ^ 15 := by
      rw [htpos _ (by positivity)]
      norm_num
    unfold astype_int16
    rw [h1]
    decide

/-- Witness for C6's hypothesis-bearing parts at the concrete samples 1/2
and -1/2. -/
theorem astype_int16_spec_witness :
    trunc_toward_zero (1 / 2 : ℝ) = ⌊(1 / 2 : ℝ)⌋ ∧
    trunc_toward_zero (-(1 / 2) : ℝ) = ⌈(-(1 / 2) : ℝ)⌉ :=
  ⟨astype_int16_spec.1 _ (by norm_num), astype_int16_spec.2.1 _ (by norm_num)⟩

/-- Helper: `py_max` returns an upper bound of the list. -/
theorem py_max_le : ∀ {l : List ℚ} {m : ℚ}, py_max l = some m → ∀ y ∈ l, y ≤ m := by
  intro l
  induction l with
  | nil => intro m h y hy; cases hy
  | cons x xs ih =>
    intro m h y hy
    rw [py_max] at h
    injection h with h
    rcases List.mem_cons.1 hy with rfl | hmem
    · cases hxs : py_max xs with
      | none => rw [hxs] at h; simp only [Option.elim] at h; exact h ▸ le_refl y
      | some m' =>
        rw [hxs] at h
        simp only [Option.elim] at h
        exact h ▸ le_max_left y m'
    · cases hxs : py_max xs with
      | none =>
        exfalso
        cases xs with
        | nil => cases hmem
        | cons a as => rw [py_max] at hxs; cases hxs
      | some m' =>
        rw [hxs] at h
        simp only [Option.elim] at h
        exact le_trans (ih hxs y hmem) (h ▸ le_max_right x m')

/-- Helper: `py_max` returns an element of the list. -/
theorem py_max_mem : ∀ {l : List ℚ} {m : ℚ}, py_max l = some m → m ∈ l := by
  intro l
  induction l with
  | nil => intro m h; cases h
  | cons x xs ih =>
    intro m h
    rw [py_max] at h
    injection h with h
    cases hxs : py_max xs with
    | none =>
      rw [hxs] at h
      simp only [Option.elim] at h
      exact h ▸ List.mem_cons_self x xs
    | some m' =>
      rw [hxs] at h
      simp only [Option.elim] at h
      rcases max_choice x m' with hc | hc
      · rw [← h, hc]
        exact List.mem_cons_self x xs
      · rw [← h, hc]
        exact List.mem_cons_of_mem x (ih hxs)

/-- Helper: `py_max` succeeds on a nonempty list. -/
theorem py_max_isSome : ∀ {l : List ℚ}, l ≠ [] → ∃ m, py_max l = some m := by
  intro l h
  cases l with
  | nil => exact absurd rfl h
  | cons x xs => exact ⟨_, rfl⟩

/-- Helper: over a buffer with a nonzero element, `max(np.abs(wave))` is
positive, bounds every magnitude and is attained. -/
theorem maxAbsVal_spec {w : List ℚ} {x₀ : ℚ} (hx : x₀ ∈ w) (hne : x₀ ≠ 0) :
    py_max (w.map fun x => |x|) = some (maxAbsVal w) ∧ 0 < maxAbsVal w ∧
    (∀ x ∈ w, |x| ≤ maxAbsVal w) ∧ (∃ x ∈ w, |x| = maxAbsVal w) := by
  have hwne : w.map (fun x => |x|) ≠ [] := by
    intro hcon
    rw [List.map_eq_nil_iff] at hcon
    rw [hcon] at hx
    cases hx
  obtain ⟨m, hm⟩ := py_max_isSome hwne
  have hval : maxAbsVal w = m := by
    rw [maxAbsVal, hm]
    rfl
  rw [hval]
  have hub : ∀ x ∈ w, |x| ≤ m := fun x hxw =>
    py_max_le hm _ (List.mem_map_of_mem _ hxw)
  have hpos : 0 < m :=
    lt_of_lt_of_le (abs_pos.mpr hne) (hub x₀ hx)
  have hmem : ∃ x ∈ w, |x| = m := by
    obtain ⟨x, hxw, hxe⟩ := List.mem_map.1 (py_max_mem hm)
    exact ⟨x, hxw, hxe⟩
  exact ⟨hm, hpos, hub, hmem⟩

/-- Helper: on buffers that each contain a nonzero sample, normalization
succeeds and each buffer is independently mapped to
`wave / max(|wave|) * max_amplitude`. -/
theorem normalize_sound_waves_eq (A : ℚ) : ∀ (waves : List (List ℚ)),
    (∀ w ∈ waves, ∃ x ∈ w, x ≠ 0) →
    normalize_sound_waves A waves =
      .ok (waves.map fun w => w.map fun x => some (x / maxAbsVal w * A)) := by
  intro waves
  induction waves with
  | nil => intro _; rfl
  | cons w ws ih =>
    intro h
    obtain ⟨x₀, hx₀, hne⟩ := h w (List.mem_cons_self w ws)
    obtain ⟨hm, hpos, -, -⟩ := maxAbsVal_spec hx₀ hne
    rw [normalize_sound_waves, hm, ih (fun w' hw' => h w' (List.mem_cons_of_mem _ hw'))]
    simp only [List.map_cons]
    congr 1
    congr 1
    apply List.map_congr_left
    intro x hxw
    rw [float_div, if_neg hpos.ne']
    rfl

/-- C7: for every list of buffers each containing a nonzero sample and a
positive amplitude, normalization succeeds, producing for each buffer
independently `wave / max(|wave|) * max_amplitude`; in every normalized
buffer all magnitudes are at most the amplitude and some sample attains
it, so the peak magnitude equals the amplitude exactly. -/
theorem normalize_nonzero (A : ℚ) (hA : 0 < A) (waves : List (List ℚ))
    (hw : ∀ w ∈ waves, ∃ x ∈ w, x ≠ 0) :
    normalize_sound_waves A waves =
      .ok (waves.map fun w => w.map fun x => some (x / maxAbsVal w * A)) ∧
    ∀ w ∈ waves, (∀ x ∈ w, |x / maxAbsVal w * A| ≤ A) ∧
      (∃ x ∈ w, |x / maxAbsVal w * A| = A) := by
  refine ⟨normalize_sound_waves_eq A waves hw, ?_⟩
  intro w hmem
  obtain ⟨x₀, hx₀, hne⟩ := hw w hmem
  obtain ⟨-, hpos, hub, y, hy, hymax⟩ := maxAbsVal_spec hx₀ hne
  constructor
  · intro x hx
    have habs : |x / maxAbsVal w * A| = |x| / maxAbsVal w * A := by
      rw [abs_mul, abs_div, abs_of_pos hpos, abs_of_pos hA]
    rw [habs]
    calc |x| / maxAbsVal w * A ≤ maxAbsVal w / maxAbsVal w * A := by
          apply mul_le_mul_of_nonneg_right _ hA.le
          exact (div_le_div_iff_of_pos_right hpos).mpr (hub x hx)
      _ = A := by rw [div_self hpos.ne', one_mul]
  · refine ⟨y, hy, ?_⟩
    rw [abs_mul, abs_div, abs_of_pos hpos, abs_of_pos hA, hymax,
      div_self hpos.ne', one_mul]

/-- Witness for C7 at amplitude 1 and the single buffer `[2]`. -/
theorem normalize_nonzero_witness :
    0 < (1 : ℚ) ∧ normalize_sound_waves 1 [[(2 : ℚ)]] =
      .ok ([[(2 : ℚ)]].map fun w => w.map fun x => some (x / maxAbsVal w * 1)) :=
  ⟨by norm_num, (normalize_nonzero 1 (by norm_num) [[(2 : ℚ)]]
    (by decide)).1⟩
